import Mathlib

/-!
Shallow embedding of the teacher exit-ticket authoring workflow and the
response-analytics / flag-aggregation engine of `src/app.py`.

The Streamlit session state keys used by the teacher flow
(`teacher_mcqs`, `teacher_all_mcqs`, `teacher_ready_for_review`,
`teacher_subject`, `teacher_lecture_topics`, `teacher_ai_instructions`,
the never-written `teacher_num_questions`, the per-item
`teacher_edit_mode_{i}` keys and `published_ticket`) become fields of an
explicit `TeacherState` record.  Python `None` / missing keys are `Option`.
External collaborators (the Gemini call in `generate_mcqs`, the
`firebase_helper` repository functions) are passed in as explicit result
values, so each handler becomes a pure function of the state and the
collaborator's outcome.
-/

namespace Professor

/-- A question record.  `generate_mcqs` attaches a `subject` key to every
generated question (`q["subject"] = subject`, app.py:107); the edit-save
handler builds a fresh dict without that key, so `subject` is `Option`. -/
structure Question where
  question : String
  options : List (String × String)
  correct_answer : String
  explanation : String
  topic : String
  subtopic : String
  subject : Option String
deriving Repr, DecidableEq

/-- The dict returned by the generator after JSON parsing: the
`questions` key may be absent (`mcqs.get("questions", [])`,
`'questions' in mcqs`). -/
structure McqsDict where
  questions : Option (List Question)
deriving Repr, DecidableEq

/-- Ticket record returned by `create_exit_ticket` (the fields
`publish_exit_ticket` reads back). -/
structure Ticket where
  ticket_id : String
  title : String
  subject : String
  total_questions : Nat
deriving Repr, DecidableEq

/-- Teacher-flow session state (app.py:160-166 initializes the first
three keys; the others are written by the handlers).  `edit_mode` models
the dynamically created `teacher_edit_mode_{i}` keys as an association
list: a missing pair is a key absent from `st.session_state`. -/
structure TeacherState where
  teacher_mcqs : Option (List Question)
  teacher_all_mcqs : Option (List Question)
  teacher_ready_for_review : Bool
  teacher_subject : Option String
  teacher_lecture_topics : Option String
  teacher_ai_instructions : Option String
  teacher_num_questions : Option Nat
  edit_mode : List (Nat × Bool)
  published_ticket : Option Ticket
deriving Repr, DecidableEq

/-- The session state right after `teacher_dashboard`'s initialization
loop on a fresh session: the three flow keys at their defaults, every
other key absent. -/
def initState : TeacherState :=
  { teacher_mcqs := none
    teacher_all_mcqs := none
    teacher_ready_for_review := false
    teacher_subject := none
    teacher_lecture_topics := none
    teacher_ai_instructions := none
    teacher_num_questions := none
    edit_mode := []
    published_ticket := none }

/-- Which page the Create-Exit-Ticket flow control shows
(app.py:169-174). -/
inductive Page where
  | input
  | questions
deriving Repr, DecidableEq

/-- Flow control in `teacher_dashboard` (app.py:169-174): input page when
no draft; questions page while not ready-for-review; otherwise reset to
the input page. -/
def route (s : TeacherState) : Page :=
  if s.teacher_mcqs = none then Page.input
  else if s.teacher_ready_for_review = false then Page.questions
  else Page.input

/-- Lookup of `teacher_edit_mode_{i}` in `st.session_state`:
`none` means the key is absent. -/
def editFlag (s : TeacherState) (i : Nat) : Option Bool :=
  (s.edit_mode.find? (fun p => p.1 = i)).map (fun p => p.2)

/-- Assignment `st.session_state[edit_key] = b` for `teacher_edit_mode_{i}`. -/
def setEditFlag (em : List (Nat × Bool)) (i : Nat) (b : Bool) : List (Nat × Bool) :=
  if em.any (fun p => p.1 = i) then
    em.map (fun p => if p.1 = i then (p.1, b) else p)
  else
    em ++ [(i, b)]

/-- Python `str.strip()`: drop leading and trailing whitespace. -/
def pyStrip (s : String) : String :=
  String.mk (((s.data.dropWhile Char.isWhitespace).reverse.dropWhile
    Char.isWhitespace).reverse)

/-- Accumulator loop of decimal-digit parsing. -/
def digitAux : List Char → Nat → Option Nat
  | [], acc => some acc
  | c :: rest, acc =>
    if c.isDigit then digitAux rest (acc * 10 + (c.toNat - ('0').toNat)) else none

/-- A non-empty all-digit character list as a number; `none` otherwise. -/
def digitsToNat (cs : List Char) : Option Nat :=
  if cs.isEmpty then none else digitAux cs 0

/-- Python `int(s)` on a string: surrounding whitespace is ignored, an
optional single sign precedes the decimal digits; anything else is a
`ValueError` (`none`). -/
def pyStrToInt (s : String) : Option Int :=
  match (pyStrip s).data with
  | '-' :: rest => (digitsToNat rest).map (fun n => -(n : Int))
  | '+' :: rest => (digitsToNat rest).map (fun n => (n : Int))
  | cs => (digitsToNat cs).map (fun n => (n : Int))

/-- Outcome of `generate_mcqs` as seen by its callers: `none` is the
Python `None` failure value, `some m` is the parsed dict `m` (whose
`questions` key may still be absent). -/
abbrev GenOutcome := Option McqsDict

/-- Post-parse behavior of `generate_mcqs` (app.py:103-120), parameterized by
the parse outcome and by which individual `save_question` calls raise.
`parsed = none` covers the missing-API-key, API-error and
JSON-decode-error paths, all of which return `None`.  On a parsed dict
the loop sets `q["subject"] = subject` on each question and calls
`save_question`; an exception there is caught by the OUTER
`except Exception` (app.py:118-120), which returns `None`. -/
def generate_mcqs (parsed : Option McqsDict) (saveRaises : Question → Bool)
    (subject : String) : GenOutcome :=
  match parsed with
  | none => none
  | some m =>
    match m.questions with
    | none => some m
    | some qs =>
      let qs' := qs.map (fun q => { q with subject := some subject })
      if qs'.any saveRaises then none else some { questions := some qs' }

/-- The submitted branch of `show_teacher_input_page` (app.py:239-262),
i.e. the spec's `requestDraft`.  Returns the new state and whether the
operation succeeded.  The topics guard (app.py:240-242) precedes the
generator call; `gen` is the value `generate_mcqs` returned. -/
def requestDraft (s : TeacherState) (topics subject instructions : String)
    (num_questions : Nat) (gen : GenOutcome) : TeacherState × Bool :=
  if pyStrip topics = "" then (s, false)
  else
    match gen with
    | some { questions := some qs } =>
      if qs.length < num_questions then (s, false)
      else
        ({ s with
            teacher_subject := some subject
            teacher_lecture_topics := some topics
            teacher_ai_instructions := some instructions
            teacher_all_mcqs := some qs
            teacher_mcqs := some qs
            teacher_ready_for_review := false }, true)
    | _ => (s, false)

/-- The count `show_teacher_questions_page` passes to `generate_mcqs` for
"Generate New Set" (app.py:359):
`st.session_state.get("teacher_num_questions", 5)`. -/
def generateNewSetCount (s : TeacherState) : Nat :=
  s.teacher_num_questions.getD 5

/-- The "Generate New Set" handler (app.py:355-368), i.e. the spec's
`regenerateAll`, given the generator outcome.  On success it replaces
both draft lists and sets `teacher_ready_for_review = True`. -/
def generateNewSet (s : TeacherState) (gen : GenOutcome) : TeacherState :=
  match gen with
  | some { questions := some qs } =>
    { s with
        teacher_mcqs := some qs
        teacher_all_mcqs := some qs
        teacher_ready_for_review := true }
  | _ => s

/-- The dict the Save button stores at `teacher_all_mcqs[i]`
(app.py:335-342): exactly six keys, no `subject`. -/
structure EditedFields where
  question : String
  options : List (String × String)
  correct_answer : String
  explanation : String
  topic : String
  subtopic : String
deriving Repr, DecidableEq

/-- The record literal from app.py:335-342 as a `Question`: the `subject`
key is absent. -/
def editedRecord (f : EditedFields) : Question :=
  { question := f.question
    options := f.options
    correct_answer := f.correct_answer
    explanation := f.explanation
    topic := f.topic
    subtopic := f.subtopic
    subject := none }

/-- The Save handler for question `i` (app.py:334-345), i.e. the spec's
`editQuestion`: assigns `teacher_all_mcqs[i]` and clears the item's
edit-mode flag.  (In the source `teacher_mcqs` aliases the same Python
list object, but its contents are never read anywhere.) -/
def saveEdit (s : TeacherState) (i : Nat) (f : EditedFields) : TeacherState :=
  match s.teacher_all_mcqs with
  | none => s
  | some qs =>
    { s with
        teacher_all_mcqs := some (qs.set i (editedRecord f))
        edit_mode := setEditFlag s.edit_mode i false }

/-- Outcome of the `create_exit_ticket` repository call inside
`publish_exit_ticket`'s `try` block: a ticket, a falsy return value, or a
raised exception (caught at app.py:413-414). -/
inductive RepoOutcome where
  | ticket (t : Ticket)
  | failed
  | raised
deriving Repr, DecidableEq

/-- The publish handler `publish_exit_ticket` (app.py:374-414).  The guard at app.py:377-379
returns early when `teacher_all_mcqs` is absent or falsy (None or empty
list).  On a truthy ticket it stores `published_ticket` and resets the
three flow keys (app.py:403-408); on a falsy return or an exception
nothing is mutated. -/
def publish_exit_ticket (s : TeacherState) (repo : RepoOutcome) : TeacherState :=
  if s.teacher_all_mcqs = none ∨ s.teacher_all_mcqs = some [] then s
  else
    match repo with
    | RepoOutcome.ticket t =>
      { s with
          published_ticket := some t
          teacher_mcqs := none
          teacher_all_mcqs := none
          teacher_ready_for_review := false }
    | RepoOutcome.failed => s
    | RepoOutcome.raised => s

/-- A Python dict key as stored in a response's `flags` / `responses`
maps: either a string or an int (snapshot data is outside this core's
control, so both representations occur). -/
inductive FKey where
  | str (s : String)
  | int (n : Int)
deriving Repr, DecidableEq

/-- The `int(...)` builtin applied to a dict key (app.py:627, app.py:681):
an int passes through; a string is parsed as a decimal integer;
`none` is the `ValueError` Python raises on anything else. -/
def pyInt : FKey → Option Int
  | FKey.int n => some n
  | FKey.str s => pyStrToInt s

/-- Python list indexing `xs[i]` on an int: non-negative indices from the
front, negative indices wrap from the back, anything else is an
`IndexError` (`none`). -/
def pyIndex {α : Type} (xs : List α) (i : Int) : Option α :=
  if 0 ≤ i then xs[i.toNat]?
  else if -(xs.length : Int) ≤ i then xs[(xs.length : Int) + i |>.toNat]?
  else none

/-- A stored student response, with the fields the analytics/flag code
reads: `student_name`, the `flags` map and the `responses` (answers)
map.  Map iteration order is the dict's insertion order, modeled by the
list order. -/
structure Response where
  student_name : String
  flags : List (FKey × Bool)
  responses : List (FKey × String)
deriving Repr, DecidableEq

/-- Per-question entry of `flag_stats['question_flag_details']`
(app.py:668-672). -/
structure QFlagDetail where
  question_text : String
  flag_count : Nat
  flagged_by : List String
deriving Repr, DecidableEq

/-- Result dict of `calculate_flag_statistics` (app.py:660-664).
`question_flag_details` is a dict keyed by the int question index,
modeled as an association list in insertion order. -/
structure FlagStats where
  total_flags : Nat
  flagged_questions : Nat
  question_flag_details : List (Int × QFlagDetail)
deriving Repr, DecidableEq

/-- Lookup in the `question_flag_details` dict. -/
def detailAt (ds : List (Int × QFlagDetail)) (i : Int) : Option QFlagDetail :=
  (ds.find? (fun p => p.1 = i)).map (fun p => p.2)

/-- Helper for the initialization loop of app.py:667-672: the entries
built by `enumerate` from offset `n` on. -/
def initDetailsFrom : Nat → List Question → List (Int × QFlagDetail)
  | _, [] => []
  | n, q :: qs =>
    ((n : Int), { question_text := q.question, flag_count := 0, flagged_by := [] })
      :: initDetailsFrom (n + 1) qs

/-- The initialization loop of app.py:667-672: one zeroed entry per
question index, keyed by the int index. -/
def initDetails (questions : List Question) : List (Int × QFlagDetail) :=
  initDetailsFrom 0 questions

/-- The two mutations of app.py:683-684: increment `flag_count` and
append `student_name` at key `q`. -/
def updateDetail (ds : List (Int × QFlagDetail)) (q : Int) (name : String) :
    List (Int × QFlagDetail) :=
  ds.map (fun p =>
    if p.1 = q then
      (p.1, { p.2 with flag_count := p.2.flag_count + 1,
                       flagged_by := p.2.flagged_by ++ [name] })
    else p)

/-- The inner loop of app.py:679-685 over one response's `flags` items:
only truthy values reach `int(q_idx_str)` (which may raise, `none`);
a decoded index updates the stats only if it is a key of
`question_flag_details`.  The accumulator is
(`total_flags`, `question_flag_details`). -/
def processResponseFlags (name : String) :
    List (FKey × Bool) → Nat × List (Int × QFlagDetail) →
    Option (Nat × List (Int × QFlagDetail))
  | [], acc => some acc
  | (k, b) :: rest, (total, ds) =>
    if b then
      match pyInt k with
      | none => none
      | some q =>
        if ds.any (fun p => p.1 = q) then
          processResponseFlags name rest (total + 1, updateDetail ds q name)
        else
          processResponseFlags name rest (total, ds)
    else
      processResponseFlags name rest (total, ds)

/-- The outer loop of app.py:675-685 over all responses. -/
def processResponses :
    List Response → Nat × List (Int × QFlagDetail) →
    Option (Nat × List (Int × QFlagDetail))
  | [], acc => some acc
  | r :: rest, acc =>
    match processResponseFlags r.student_name r.flags acc with
    | none => none
    | some acc' => processResponses rest acc'

/-- The aggregation `calculate_flag_statistics(responses, questions)` (app.py:658-693).
`none` models the uncaught `ValueError` from `int(q_idx_str)` on a
malformed truthy flag key. -/
def calculate_flag_statistics (responses : List Response)
    (questions : List Question) : Option FlagStats :=
  match processResponses responses (0, initDetails questions) with
  | none => none
  | some (total, ds) =>
    some { total_flags := total,
           flagged_questions := (ds.filter (fun p => 0 < p.2.flag_count)).length,
           question_flag_details := ds }

/-- One rendered answer line of the per-response detail view
(app.py:626-654). -/
structure AnswerRow where
  q_idx : Int
  is_flagged : Bool
  is_correct : Bool
  answer_text : String
deriving Repr, DecidableEq

/-- The detail-view loop of app.py:626-654 over one response's answers:
`q_idx = int(q_idx_str)` (may raise), then the row is rendered only when
`q_idx < len(questions)`; a rendered row indexes `questions[q_idx]`
(Python semantics: negative indices wrap, too-negative ones raise),
looks the flag up under the STRING key `str(q_idx)`, and compares the
answer with `correct_answer`. -/
def renderAnswers (flags : List (FKey × Bool)) (answers : List (FKey × String))
    (questions : List Question) : Option (List AnswerRow) :=
  match answers with
  | [] => some []
  | (k, ans) :: rest =>
    match pyInt k with
    | none => none
    | some q_idx =>
      if q_idx < (questions.length : Int) then
        match pyIndex questions q_idx with
        | none => none
        | some question =>
          match renderAnswers flags rest questions with
          | none => none
          | some rows =>
            some ({ q_idx := q_idx
                    is_flagged :=
                      ((flags.find? (fun p => p.1 = FKey.str (toString q_idx))).map
                        (fun p => p.2)).getD false
                    is_correct := ans = question.correct_answer
                    answer_text :=
                      ((question.options.find? (fun p => p.1 = ans)).map
                        (fun p => p.2)).getD "N/A" } :: rows)
      else
        renderAnswers flags rest questions

/-- Spec-side helper: the indices a response's flags map marks as
flagged, i.e. the decoded values of its truthy keys, in map order. -/
def dtFlags (fs : List (FKey × Bool)) : List Int :=
  (fs.filter (fun p => p.2 = true)).filterMap (fun p => pyInt p.1)

/-- Spec-side helper: whether response `r` flags question index `i`. -/
def flagsAt (r : Response) (i : Int) : Bool :=
  decide (i ∈ dtFlags r.flags)

/-- Spec-side helper: the names of the responses that flag index `i`, in
the iteration order of the response list, duplicates kept. -/
def flaggedBySpec (R : List Response) (i : Int) : List String :=
  (R.filter (fun r => flagsAt r i)).map (fun r => r.student_name)

/-- One flag hit on a detail entry: the two mutations of app.py:683-684. -/
def bump (d : QFlagDetail) (name : String) : QFlagDetail :=
  { d with flag_count := d.flag_count + 1, flagged_by := d.flagged_by ++ [name] }

/-- Apply one response's whole set of decoded flag indices to the detail
dict: every entry whose key is among `idxs` takes one hit. -/
def bulkUpdate (ds : List (Int × QFlagDetail)) (idxs : List Int) (name : String) :
    List (Int × QFlagDetail) :=
  ds.map (fun p => if p.1 ∈ idxs then (p.1, bump p.2 name) else p)

/-- Fold a whole list of flagging students into a detail entry. -/
def bulkAppend (d : QFlagDetail) (names : List String) : QFlagDetail :=
  { d with flag_count := d.flag_count + names.length,
           flagged_by := d.flagged_by ++ names }

/-- Whether a dict key decodes (via `int(...)`) to a non-negative index. -/
def decodesNonneg (k : FKey) : Bool :=
  match pyInt k with
  | some n => 0 ≤ n
  | none => false

/-- A concrete well-formed question, used to instantiate theorems. -/
def sampleQuestion : Question :=
  { question := "What does TCP use to establish a connection?"
    options := [("A", "three-way handshake"), ("B", "broadcast"),
                ("C", "polling"), ("D", "token passing")]
    correct_answer := "A"
    explanation := "TCP opens with SYN, SYN-ACK, ACK."
    topic := "TCP"
    subtopic := "handshake"
    subject := none }

/-- A concrete ticket as returned by the repository. -/
def sampleTicket : Ticket :=
  { ticket_id := "TCK42", title := "Exit Ticket - Networking",
    subject := "Networking", total_questions := 1 }

/-- A concrete Reviewing-state session: a one-question draft under
review, ready-for-review unset. -/
def reviewingState : TeacherState :=
  { initState with
      teacher_mcqs := some [sampleQuestion]
      teacher_all_mcqs := some [sampleQuestion] }

/-- A Reviewing-state session in which question 0 is in edit mode. -/
def stateWithEditFlag : TeacherState :=
  { reviewingState with edit_mode := [(0, true)] }

/-- Flag scenario of the spec, response A: Alice flags questions 0 and 2. -/
def respA : Response :=
  { student_name := "Alice",
    flags := [(FKey.str "0", true), (FKey.str "2", true)], responses := [] }

/-- Flag scenario of the spec, response B: Bob flags question 0. -/
def respB : Response :=
  { student_name := "Bob", flags := [(FKey.str "0", true)], responses := [] }

/-- A response mixing int-keyed, string-keyed, out-of-range and
falsy-malformed flag entries. -/
def respC : Response :=
  { student_name := "Cara",
    flags := [(FKey.int 0, true), (FKey.str "5", true), (FKey.str "-1", true),
              (FKey.str "xyz", false)],
    responses := [(FKey.str "0", "A"), (FKey.str "5", "B")] }

/-- A concrete three-question ticket snapshot. -/
def threeQuestions : List Question :=
  [sampleQuestion,
   { sampleQuestion with question := "What does UDP lack compared to TCP?" },
   { sampleQuestion with question := "Which layer does IP belong to?" }]

/-- C1: for a requested count N in [3,10], if the generator succeeds but
returns fewer than N questions the submit handler errors out and the
state is untouched (still Input, no draft); if it returns at least N
questions the operation succeeds and the draft is exactly the returned
list (surplus kept, never truncated). -/
theorem claim_C1_requestDraft_threshold (s : TeacherState)
    (topics subject instructions : String) (N : Nat) (qs : List Question)
    (h3 : 3 ≤ N) (h10 : N ≤ 10) (htopics : pyStrip topics ≠ "")
    (hinput : s.teacher_mcqs = none) :
    (qs.length < N →
      requestDraft s topics subject instructions N (some { questions := some qs }) = (s, false) ∧
      route s = Page.input) ∧
    (N ≤ qs.length →
      (requestDraft s topics subject instructions N (some { questions := some qs })).2 = true ∧
      (requestDraft s topics subject instructions N
        (some { questions := some qs })).1.teacher_all_mcqs = some qs ∧
      route (requestDraft s topics subject instructions N
        (some { questions := some qs })).1 = Page.questions) := by
  constructor
  · intro hlt
    refine ⟨by simp [requestDraft, htopics, hlt], by simp [route, hinput]⟩
  · intro hge
    have hnlt : ¬ qs.length < N := Nat.not_lt.mpr hge
    simp [requestDraft, htopics, hnlt, route]

/-- Witness for C1 at a concrete input: count 3, generator returns 4
questions. -/
theorem claim_C1_requestDraft_threshold_witness :
    ((List.replicate 4 sampleQuestion).length < 3 →
      requestDraft initState "OSI model, TCP handshake" "Networking" "" 3
        (some { questions := some (List.replicate 4 sampleQuestion) }) = (initState, false) ∧
      route initState = Page.input) ∧
    (3 ≤ (List.replicate 4 sampleQuestion).length →
      (requestDraft initState "OSI model, TCP handshake" "Networking" "" 3
        (some { questions := some (List.replicate 4 sampleQuestion) })).2 = true ∧
      (requestDraft initState "OSI model, TCP handshake" "Networking" "" 3
        (some { questions := some (List.replicate 4 sampleQuestion) })).1.teacher_all_mcqs =
          some (List.replicate 4 sampleQuestion) ∧
      route (requestDraft initState "OSI model, TCP handshake" "Networking" "" 3
        (some { questions := some (List.replicate 4 sampleQuestion) })).1 = Page.questions) :=
  claim_C1_requestDraft_threshold initState "OSI model, TCP handshake" "Networking" "" 3
    (List.replicate 4 sampleQuestion) (by decide) (by decide) (by decide) rfl

/-- C3: evaluation of the generate-new-set bug.  From a Reviewing state
(questions page shown), a successful "Generate New Set" sets
`teacher_ready_for_review = True`, which the flow control of
`teacher_dashboard` treats as a reason to show the INPUT page again —
the workflow does NOT remain in Reviewing as the spec states. -/
theorem claim_C3_generateNewSet_falls_back_to_input :
    route reviewingState = Page.questions ∧
    (generateNewSet reviewingState
      (some { questions := some [sampleQuestion] })).teacher_ready_for_review = true ∧
    route (generateNewSet reviewingState
      (some { questions := some [sampleQuestion] })) = Page.input := by
  decide

/-- C4 counterexample: publishing from a state in which question 0's
edit-mode flag is set leaves that flag set — the per-item edit-mode
flags are NOT cleared, so the post-publish state is not the initial
Input state. -/
theorem claim_C4_counterexample_edit_flag_survives :
    editFlag (publish_exit_ticket stateWithEditFlag (RepoOutcome.ticket sampleTicket)) 0 =
      some true ∧
    editFlag initState 0 = none ∧
    publish_exit_ticket stateWithEditFlag (RepoOutcome.ticket sampleTicket) ≠ initState := by
  decide

/-- C4 amended: after a successful publish the draft keys are reset
(`teacher_mcqs`/`teacher_all_mcqs` to None, ready-for-review to False),
the router shows the Input page, and a second publish without a new
draft is a no-op error; the per-item edit-mode flags, however, are left
untouched. -/
theorem claim_C4_amended_publish_resets_draft_not_edit_flags
    (s : TeacherState) (t : Ticket) (r2 : RepoOutcome)
    (h1 : s.teacher_all_mcqs ≠ none) (h2 : s.teacher_all_mcqs ≠ some []) :
    (publish_exit_ticket s (RepoOutcome.ticket t)).teacher_mcqs = none ∧
    (publish_exit_ticket s (RepoOutcome.ticket t)).teacher_all_mcqs = none ∧
    (publish_exit_ticket s (RepoOutcome.ticket t)).teacher_ready_for_review = false ∧
    route (publish_exit_ticket s (RepoOutcome.ticket t)) = Page.input ∧
    (publish_exit_ticket s (RepoOutcome.ticket t)).edit_mode = s.edit_mode ∧
    publish_exit_ticket (publish_exit_ticket s (RepoOutcome.ticket t)) r2 =
      publish_exit_ticket s (RepoOutcome.ticket t) := by
  have hcond : ¬ (s.teacher_all_mcqs = none ∨ s.teacher_all_mcqs = some []) := by
    rintro (h | h)
    · exact h1 h
    · exact h2 h
  simp [publish_exit_ticket, hcond, route]

/-- Witness for the amended C4 at a concrete Reviewing state with an
edit flag set. -/
theorem claim_C4_amended_publish_resets_draft_not_edit_flags_witness :
    (publish_exit_ticket stateWithEditFlag
      (RepoOutcome.ticket sampleTicket)).teacher_mcqs = none ∧
    (publish_exit_ticket stateWithEditFlag
      (RepoOutcome.ticket sampleTicket)).teacher_all_mcqs = none ∧
    (publish_exit_ticket stateWithEditFlag
      (RepoOutcome.ticket sampleTicket)).teacher_ready_for_review = false ∧
    route (publish_exit_ticket stateWithEditFlag
      (RepoOutcome.ticket sampleTicket)) = Page.input ∧
    (publish_exit_ticket stateWithEditFlag
      (RepoOutcome.ticket sampleTicket)).edit_mode = stateWithEditFlag.edit_mode ∧
    publish_exit_ticket (publish_exit_ticket stateWithEditFlag
      (RepoOutcome.ticket sampleTicket)) RepoOutcome.failed =
      publish_exit_ticket stateWithEditFlag (RepoOutcome.ticket sampleTicket) :=
  claim_C4_amended_publish_resets_draft_not_edit_flags stateWithEditFlag sampleTicket
    RepoOutcome.failed (by decide) (by decide)

/-- C5: if the repository create call returns a falsy value or raises,
`publish_exit_ticket` leaves the whole session state unchanged —
atomicity on error. -/
theorem claim_C5_publish_failure_preserves_state (s : TeacherState) :
    publish_exit_ticket s RepoOutcome.failed = s ∧
    publish_exit_ticket s RepoOutcome.raised = s := by
  unfold publish_exit_ticket
  constructor <;> split <;> rfl

/-- Witness for C5 at a concrete Reviewing state. -/
theorem claim_C5_publish_failure_preserves_state_witness :
    publish_exit_ticket stateWithEditFlag RepoOutcome.failed = stateWithEditFlag ∧
    publish_exit_ticket stateWithEditFlag RepoOutcome.raised = stateWithEditFlag :=
  claim_C5_publish_failure_preserves_state stateWithEditFlag

/-- C6: evaluation of the regenerate-all count bug.  `requestDraft`
never writes `teacher_num_questions`, so after requesting 7 questions
the "Generate New Set" handler passes
`st.session_state.get("teacher_num_questions", 5) = 5` — not the
requested 7 — to the generator. -/
theorem claim_C6_generateNewSet_count_ignores_requested :
    (requestDraft initState "OSI model, TCP handshake" "Networking" "" 7
      (some { questions := some (List.replicate 7 sampleQuestion) })).1.teacher_num_questions =
        none ∧
    generateNewSetCount
      (requestDraft initState "OSI model, TCP handshake" "Networking" "" 7
        (some { questions := some (List.replicate 7 sampleQuestion) })).1 = 5 ∧
    (5 : Nat) ≠ 7 := by
  decide

/-- C8 counterexample: if `save_question` raises on the (single)
generated question, `generate_mcqs` returns None — the questions are NOT
returned — and a submit using that outcome creates no draft. -/
theorem claim_C8_counterexample_save_failure_blocks :
    generate_mcqs (some { questions := some [sampleQuestion] }) (fun _ => true) "Math" = none ∧
    requestDraft initState "OSI model, TCP handshake" "Networking" "" 3
      (generate_mcqs (some { questions := some (List.replicate 3 sampleQuestion) })
        (fun _ => true) "Networking") = (initState, false) := by
  decide

/-- C8 amended: a `save_question` exception during the post-parse loop
is caught by the OUTER exception handler of `generate_mcqs`, which
returns None; the generation operation therefore fails and the submit
handler leaves the state unchanged — best-effort-logging failures DO
block the workflow. -/
theorem claim_C8_amended_save_failure_returns_none
    (parsed : Option McqsDict) (saveRaises : Question → Bool) (subject : String)
    (s : TeacherState) (topics subj instructions : String) (n : Nat) (qs : List Question)
    (hp : parsed = some { questions := some qs })
    (hr : (qs.map (fun q => { q with subject := some subject })).any saveRaises = true) :
    generate_mcqs parsed saveRaises subject = none ∧
    requestDraft s topics subj instructions n (generate_mcqs parsed saveRaises subject) =
      (s, false) := by
  subst hp
  have h1 : generate_mcqs (some { questions := some qs }) saveRaises subject = none := by
    simp [generate_mcqs, hr]
  refine ⟨h1, ?_⟩
  rw [h1]
  unfold requestDraft
  split <;> rfl

/-- Witness for the amended C8: one generated question whose save
raises. -/
theorem claim_C8_amended_save_failure_returns_none_witness :
    generate_mcqs (some { questions := some [sampleQuestion] }) (fun _ => true) "Networking" =
      none ∧
    requestDraft initState "OSI model" "Networking" "" 3
      (generate_mcqs (some { questions := some [sampleQuestion] }) (fun _ => true)
        "Networking") = (initState, false) :=
  claim_C8_amended_save_failure_returns_none (some { questions := some [sampleQuestion] })
    (fun _ => true) "Networking" initState "OSI model" "Networking" "" 3 [sampleQuestion]
    rfl (by decide)

/-- C9: saving an edit of question `i` replaces exactly index `i` of the
draft: every other index is unchanged, the length is unchanged, and the
flow-control state (draft presence, ready-for-review, routed page) is
unchanged. -/
theorem claim_C9_saveEdit_frame (s : TeacherState) (i : Nat) (f : EditedFields)
    (qs : List Question) (h : s.teacher_all_mcqs = some qs) (hi : i < qs.length) :
    (saveEdit s i f).teacher_all_mcqs = some (qs.set i (editedRecord f)) ∧
    (qs.set i (editedRecord f)).length = qs.length ∧
    (∀ j : Nat, j ≠ i → (qs.set i (editedRecord f))[j]? = qs[j]?) ∧
    (qs.set i (editedRecord f))[i]? = some (editedRecord f) ∧
    (saveEdit s i f).teacher_mcqs = s.teacher_mcqs ∧
    (saveEdit s i f).teacher_ready_for_review = s.teacher_ready_for_review ∧
    route (saveEdit s i f) = route s := by
  refine ⟨by simp [saveEdit, h], List.length_set qs i (editedRecord f), ?_, ?_, ?_, ?_, ?_⟩
  · intro j hj
    exact List.getElem?_set_ne (Ne.symm hj)
  · exact List.getElem?_set_eq_of_lt (editedRecord f) hi
  · simp [saveEdit, h]
  · simp [saveEdit, h]
  · simp [route, saveEdit, h]

/-- Witness for C9: editing index 0 of a two-question draft. -/
theorem claim_C9_saveEdit_frame_witness :
    (saveEdit { reviewingState with
        teacher_all_mcqs := some [sampleQuestion, sampleQuestion] } 0
      { question := "edited?", options := [("A", "x"), ("B", "y"), ("C", "z"), ("D", "w")],
        correct_answer := "B", explanation := "because", topic := "t",
        subtopic := "st" }).teacher_all_mcqs =
      some ([sampleQuestion, sampleQuestion].set 0 (editedRecord
        { question := "edited?", options := [("A", "x"), ("B", "y"), ("C", "z"), ("D", "w")],
          correct_answer := "B", explanation := "because", topic := "t",
          subtopic := "st" })) ∧
    ([sampleQuestion, sampleQuestion].set 0 (editedRecord
      { question := "edited?", options := [("A", "x"), ("B", "y"), ("C", "z"), ("D", "w")],
        correct_answer := "B", explanation := "because", topic := "t",
        subtopic := "st" })).length = [sampleQuestion, sampleQuestion].length ∧
    (∀ j : Nat, j ≠ 0 → ([sampleQuestion, sampleQuestion].set 0 (editedRecord
      { question := "edited?", options := [("A", "x"), ("B", "y"), ("C", "z"), ("D", "w")],
        correct_answer := "B", explanation := "because", topic := "t",
        subtopic := "st" }))[j]? = [sampleQuestion, sampleQuestion][j]?) ∧
    ([sampleQuestion, sampleQuestion].set 0 (editedRecord
      { question := "edited?", options := [("A", "x"), ("B", "y"), ("C", "z"), ("D", "w")],
        correct_answer := "B", explanation := "because", topic := "t",
        subtopic := "st" }))[0]? = some (editedRecord
      { question := "edited?", options := [("A", "x"), ("B", "y"), ("C", "z"), ("D", "w")],
        correct_answer := "B", explanation := "because", topic := "t",
        subtopic := "st" }) ∧
    (saveEdit { reviewingState with
        teacher_all_mcqs := some [sampleQuestion, sampleQuestion] } 0
      { question := "edited?", options := [("A", "x"), ("B", "y"), ("C", "z"), ("D", "w")],
        correct_answer := "B", explanation := "because", topic := "t",
        subtopic := "st" }).teacher_mcqs =
      ({ reviewingState with
        teacher_all_mcqs := some [sampleQuestion, sampleQuestion] } : TeacherState).teacher_mcqs ∧
    (saveEdit { reviewingState with
        teacher_all_mcqs := some [sampleQuestion, sampleQuestion] } 0
      { question := "edited?", options := [("A", "x"), ("B", "y"), ("C", "z"), ("D", "w")],
        correct_answer := "B", explanation := "because", topic := "t",
        subtopic := "st" }).teacher_ready_for_review =
      ({ reviewingState with
        teacher_all_mcqs := some [sampleQuestion, sampleQuestion] } : TeacherState).teacher_ready_for_review ∧
    route (saveEdit { reviewingState with
        teacher_all_mcqs := some [sampleQuestion, sampleQuestion] } 0
      { question := "edited?", options := [("A", "x"), ("B", "y"), ("C", "z"), ("D", "w")],
        correct_answer := "B", explanation := "because", topic := "t",
        subtopic := "st" }) =
      route { reviewingState with teacher_all_mcqs := some [sampleQuestion, sampleQuestion] } :=
  claim_C9_saveEdit_frame
    { reviewingState with teacher_all_mcqs := some [sampleQuestion, sampleQuestion] } 0
    { question := "edited?", options := [("A", "x"), ("B", "y"), ("C", "z"), ("D", "w")],
      correct_answer := "B", explanation := "because", topic := "t", subtopic := "st" }
    [sampleQuestion, sampleQuestion] rfl (by decide)

/-- C10: the record the Save button writes has exactly the six edited
fields and no `subject` key, whereas every question returned by a
successful `generate_mcqs` carries `subject` — so editing a question
loses its subject attribute. -/
theorem claim_C10_edited_record_loses_subject
    (f : EditedFields) (parsed : Option McqsDict) (saveRaises : Question → Bool)
    (subject : String) (qs : List Question)
    (h : generate_mcqs parsed saveRaises subject = some { questions := some qs }) :
    (editedRecord f).subject = none ∧ ∀ q ∈ qs, q.subject = some subject := by
  refine ⟨rfl, ?_⟩
  cases parsed with
  | none => simp [generate_mcqs] at h
  | some m =>
    cases hm : m.questions with
    | none =>
      rw [generate_mcqs, hm] at h
      have := congrArg (fun o => (Option.map McqsDict.questions o)) h
      simp [hm] at this
    | some qs0 =>
      rw [generate_mcqs, hm] at h
      by_cases hr : (qs0.map (fun q => { q with subject := some subject })).any saveRaises
      · simp [hr] at h
      · simp [hr] at h
        intro q hq
        rw [← h] at hq
        obtain ⟨q0, _, rfl⟩ := List.mem_map.mp hq
        rfl

theorem bulkAppend_nil (d : QFlagDetail) : bulkAppend d [] = d := by
  cases d with
  | mk qt fc fb => simp [bulkAppend]

theorem bump_bulkAppend (d : QFlagDetail) (name : String) (ns : List String) :
    bulkAppend (bump d name) ns = bulkAppend d (name :: ns) := by
  cases d with
  | mk qt fc fb =>
    simp [bulkAppend, bump]
    omega

theorem sum_map_zero (l : List Int) : (l.map (fun _ => (0 : Nat))).sum = 0 := by
  induction l with
  | nil => rfl
  | cons x xs ih => simp [ih]

theorem sum_map_add (l : List Int) (f g : Int → Nat) :
    (l.map (fun i => f i + g i)).sum = (l.map f).sum + (l.map g).sum := by
  induction l with
  | nil => rfl
  | cons x xs ih => simp [ih]; omega

theorem sum_indicator (l : List Int) (p : Int → Bool) :
    (l.map (fun i => if p i then (1 : Nat) else 0)).sum = l.countP p := by
  induction l with
  | nil => rfl
  | cons x xs ih =>
    rw [List.map_cons, List.sum_cons, List.countP_cons, ih]
    by_cases h : p x <;> simp [h] <;> omega

theorem countP_mem_cons (b : List Int) (hb : b.Nodup) (x : Int) (a : List Int)
    (hx : x ∉ a) :
    b.countP (fun i => decide (i ∈ x :: a)) =
      (if x ∈ b then 1 else 0) + b.countP (fun i => decide (i ∈ a)) := by
  induction b with
  | nil => simp
  | cons y b' ih =>
    obtain ⟨hyb, hb'⟩ := List.nodup_cons.mp hb
    rw [List.countP_cons, List.countP_cons, ih hb']
    by_cases hyx : y = x
    · subst hyx
      simp [List.mem_cons, hx, hyb]
      omega
    · have hxy : x ≠ y := Ne.symm hyx
      by_cases hya : y ∈ a
      · by_cases hxb : x ∈ b' <;>
          simp [List.mem_cons, hyx, hya, hxb, hxy] <;> omega
      · by_cases hxb : x ∈ b' <;>
          simp [List.mem_cons, hyx, hya, hxb, hxy] <;> omega

theorem countP_mem_comm (a b : List Int) (ha : a.Nodup) (hb : b.Nodup) :
    a.countP (fun i => decide (i ∈ b)) = b.countP (fun i => decide (i ∈ a)) := by
  induction a with
  | nil => simp
  | cons x a' ih =>
    obtain ⟨hxa, ha'⟩ := List.nodup_cons.mp ha
    rw [List.countP_cons, ih ha', countP_mem_cons b hb x a' hxa]
    by_cases hxb : x ∈ b <;> simp [hxb] <;> omega

theorem updateDetail_keys (ds : List (Int × QFlagDetail)) (q : Int) (name : String) :
    (updateDetail ds q name).map Prod.fst = ds.map Prod.fst := by
  induction ds with
  | nil => rfl
  | cons p ps ih =>
    simp only [updateDetail, List.map_cons] at ih ⊢
    by_cases h : p.1 = q <;> simp [h, ih]

theorem updateDetail_any (ds : List (Int × QFlagDetail)) (q : Int) (name : String)
    (x : Int) :
    (updateDetail ds q name).any (fun p => p.1 = x) = ds.any (fun p => p.1 = x) := by
  induction ds with
  | nil => rfl
  | cons p ps ih =>
    simp only [updateDetail, List.map_cons, List.any_cons] at ih ⊢
    by_cases h : p.1 = q <;> simp [h, ih]

theorem any_key_eq (ds : List (Int × QFlagDetail)) (x : Int) :
    ds.any (fun p => p.1 = x) = decide (x ∈ ds.map Prod.fst) := by
  induction ds with
  | nil => simp
  | cons p ps ih =>
    rw [List.any_cons, List.map_cons, ih]
    by_cases h : p.1 = x
    · subst h
      simp
    · have hxp : x ≠ p.1 := fun hh => h hh.symm
      simp [h, hxp]

theorem bulkUpdate_nil (ds : List (Int × QFlagDetail)) (name : String) :
    bulkUpdate ds [] name = ds := by
  induction ds with
  | nil => rfl
  | cons p ps ih => simp only [bulkUpdate, List.map_cons] at ih ⊢; simp [ih]

theorem bulkUpdate_keys (ds : List (Int × QFlagDetail)) (idxs : List Int) (name : String) :
    (bulkUpdate ds idxs name).map Prod.fst = ds.map Prod.fst := by
  induction ds with
  | nil => rfl
  | cons p ps ih =>
    simp only [bulkUpdate, List.map_cons] at ih ⊢
    by_cases h : p.1 ∈ idxs <;> simp [h, ih]

theorem bulkUpdate_shift (ds : List (Int × QFlagDetail)) (q : Int) (idxs : List Int)
    (name : String) (h : q ∉ idxs) :
    bulkUpdate (updateDetail ds q name) idxs name = bulkUpdate ds (q :: idxs) name := by
  unfold bulkUpdate updateDetail
  rw [List.map_map]
  apply List.map_congr_left
  intro p hp
  simp only [Function.comp_apply]
  split_ifs <;> simp_all [List.mem_cons, bump]

theorem bulkUpdate_drop (ds : List (Int × QFlagDetail)) (q : Int) (idxs : List Int)
    (name : String) (h : ∀ p ∈ ds, p.1 ≠ q) :
    bulkUpdate ds (q :: idxs) name = bulkUpdate ds idxs name := by
  unfold bulkUpdate
  apply List.map_congr_left
  intro p hp
  have hp1 : p.1 ≠ q := h p hp
  split_ifs <;> simp_all [List.mem_cons]

theorem dtFlags_cons_false (k : FKey) (rest : List (FKey × Bool)) :
    dtFlags ((k, false) :: rest) = dtFlags rest := by
  simp [dtFlags]

theorem dtFlags_cons_true (k : FKey) (q : Int) (rest : List (FKey × Bool))
    (h : pyInt k = some q) :
    dtFlags ((k, true) :: rest) = q :: dtFlags rest := by
  simp [dtFlags, List.filter_cons, h]

theorem flagsAt_def (r : Response) (i : Int) :
    flagsAt r i = decide (i ∈ dtFlags r.flags) := rfl

theorem flaggedBySpec_nil (i : Int) : flaggedBySpec [] i = [] := rfl

theorem flaggedBySpec_cons (r : Response) (R : List Response) (i : Int) :
    flaggedBySpec (r :: R) i =
      if flagsAt r i then r.student_name :: flaggedBySpec R i else flaggedBySpec R i := by
  by_cases h : flagsAt r i <;> simp [flaggedBySpec, List.filter_cons, h]

theorem flaggedBySpec_cons_length (r : Response) (R : List Response) (i : Int) :
    (flaggedBySpec (r :: R) i).length =
      (if flagsAt r i then 1 else 0) + (flaggedBySpec R i).length := by
  rw [flaggedBySpec_cons]
  by_cases h : flagsAt r i
  · simp [h]
    omega
  · simp [h]

theorem processResponseFlags_eq (name : String) (fs : List (FKey × Bool)) :
    ∀ (t : Nat) (ds : List (Int × QFlagDetail)),
    (∀ p ∈ fs, p.2 = true → (pyInt p.1).isSome) →
    (dtFlags fs).Nodup →
    processResponseFlags name fs (t, ds) =
      some (t + (dtFlags fs).countP (fun i => ds.any (fun p => p.1 = i)),
            bulkUpdate ds (dtFlags fs) name) := by
  induction fs with
  | nil =>
    intro t ds _ _
    simp [processResponseFlags, dtFlags, bulkUpdate_nil]
  | cons kb rest ih =>
    intro t ds hdec hnd
    obtain ⟨k, b⟩ := kb
    have hdecrest : ∀ p ∈ rest, p.2 = true → (pyInt p.1).isSome :=
      fun p hp => hdec p (List.mem_cons_of_mem _ hp)
    cases b with
    | false =>
      have step : processResponseFlags name ((k, false) :: rest) (t, ds) =
          processResponseFlags name rest (t, ds) := by
        simp [processResponseFlags]
      rw [dtFlags_cons_false] at hnd
      rw [step, dtFlags_cons_false]
      exact ih t ds hdecrest hnd
    | true =>
      have hks : (pyInt k).isSome := hdec (k, true) (List.mem_cons_self _ _) rfl
      obtain ⟨q, hq⟩ := Option.isSome_iff_exists.mp hks
      have hdt : dtFlags ((k, true) :: rest) = q :: dtFlags rest :=
        dtFlags_cons_true k q rest hq
      rw [hdt] at hnd
      obtain ⟨hqnotin, hndrest⟩ := List.nodup_cons.mp hnd
      rw [hdt]
      by_cases hmem : ds.any (fun p => p.1 = q) = true
      · have step : processResponseFlags name ((k, true) :: rest) (t, ds) =
            processResponseFlags name rest (t + 1, updateDetail ds q name) := by
          simp [processResponseFlags, hq, hmem]
        rw [step, ih (t + 1) (updateDetail ds q name) hdecrest hndrest]
        have hcong : (dtFlags rest).countP
              (fun i => (updateDetail ds q name).any (fun p => p.1 = i)) =
            (dtFlags rest).countP (fun i => ds.any (fun p => p.1 = i)) :=
          List.countP_congr (fun i _ => by rw [updateDetail_any])
        rw [hcong, bulkUpdate_shift ds q (dtFlags rest) name hqnotin, List.countP_cons]
        simp only [Option.some.injEq, Prod.mk.injEq]
        refine ⟨?_, trivial⟩
        simp only [hmem, if_true]
        omega
      · have hfalse : ds.any (fun p => p.1 = q) = false := by
          cases hv : ds.any (fun p => p.1 = q) with
          | false => rfl
          | true => exact absurd hv hmem
        have step : processResponseFlags name ((k, true) :: rest) (t, ds) =
            processResponseFlags name rest (t, ds) := by
          simp [processResponseFlags, hq, hfalse]
        rw [step, ih t ds hdecrest hndrest]
        have hnokey : ∀ p ∈ ds, p.1 ≠ q := by
          intro p hp
          have := List.any_eq_false.mp hfalse p hp
          simpa using this
        rw [bulkUpdate_drop ds q (dtFlags rest) name hnokey, List.countP_cons]
        simp only [Option.some.injEq, Prod.mk.injEq]
        refine ⟨?_, trivial⟩
        simp only [hfalse, Bool.false_eq_true, if_false]
        omega

theorem processResponses_eq (R : List Response) :
    ∀ (t : Nat) (ds : List (Int × QFlagDetail)),
    (∀ r ∈ R, ∀ p ∈ r.flags, p.2 = true → (pyInt p.1).isSome) →
    (∀ r ∈ R, (dtFlags r.flags).Nodup) →
    ((ds.map Prod.fst).Nodup) →
    processResponses R (t, ds) =
      some (t + ((ds.map Prod.fst).map (fun i => (flaggedBySpec R i).length)).sum,
            ds.map (fun p => (p.1, bulkAppend p.2 (flaggedBySpec R p.1)))) := by
  induction R with
  | nil =>
    intro t ds _ _ _
    have h0 : ((ds.map Prod.fst).map (fun i => (flaggedBySpec [] i).length)).sum = 0 := by
      apply List.sum_eq_zero
      intro x hx
      obtain ⟨i, _, rfl⟩ := List.mem_map.mp hx
      rfl
    rw [processResponses, h0]
    simp [flaggedBySpec_nil, bulkAppend_nil]
  | cons r R' ih =>
    intro t ds hdec hnd hkeys
    have hmem := List.mem_cons_self r R'
    have hinner := processResponseFlags_eq r.student_name r.flags t ds
      (hdec r hmem) (hnd r hmem)
    have hdec' : ∀ x ∈ R', ∀ p ∈ x.flags, p.2 = true → (pyInt p.1).isSome :=
      fun x hx => hdec x (List.mem_cons_of_mem r hx)
    have hnd' : ∀ x ∈ R', (dtFlags x.flags).Nodup :=
      fun x hx => hnd x (List.mem_cons_of_mem r hx)
    have hkeys1 :
        ((bulkUpdate ds (dtFlags r.flags) r.student_name).map Prod.fst).Nodup := by
      rw [bulkUpdate_keys]; exact hkeys
    have step : processResponses (r :: R') (t, ds) =
        processResponses R'
          (t + (dtFlags r.flags).countP (fun i => ds.any (fun p => p.1 = i)),
           bulkUpdate ds (dtFlags r.flags) r.student_name) := by
      rw [processResponses, hinner]
    rw [step, ih _ _ hdec' hnd' hkeys1, bulkUpdate_keys]
    have hc : (dtFlags r.flags).countP (fun i => ds.any (fun p => p.1 = i)) =
        (ds.map Prod.fst).countP (fun i => flagsAt r i) := by
      have h1 : (dtFlags r.flags).countP (fun i => ds.any (fun p => p.1 = i)) =
          (dtFlags r.flags).countP (fun i => decide (i ∈ ds.map Prod.fst)) :=
        List.countP_congr (fun i _ => by rw [any_key_eq])
      rw [h1, countP_mem_comm _ _ (hnd r hmem) hkeys]
      exact List.countP_congr (fun i _ => by rw [flagsAt_def])
    have hsum : ((ds.map Prod.fst).map
          (fun i => (flaggedBySpec (r :: R') i).length)).sum =
        (ds.map Prod.fst).countP (fun i => flagsAt r i) +
        ((ds.map Prod.fst).map (fun i => (flaggedBySpec R' i).length)).sum := by
      have h1 : (ds.map Prod.fst).map (fun i => (flaggedBySpec (r :: R') i).length) =
          (ds.map Prod.fst).map
            (fun i => (if flagsAt r i then 1 else 0) + (flaggedBySpec R' i).length) :=
        List.map_congr_left (fun i _ => flaggedBySpec_cons_length r R' i)
      rw [h1, sum_map_add, sum_indicator]
    have hdetails : (bulkUpdate ds (dtFlags r.flags) r.student_name).map
          (fun p => (p.1, bulkAppend p.2 (flaggedBySpec R' p.1))) =
        ds.map (fun p => (p.1, bulkAppend p.2 (flaggedBySpec (r :: R') p.1))) := by
      unfold bulkUpdate
      rw [List.map_map]
      apply List.map_congr_left
      intro p hp
      by_cases hm : p.1 ∈ dtFlags r.flags
      · have hf : flagsAt r p.1 = true := by simp [flagsAt, hm]
        simp only [Function.comp_apply, if_pos hm, flaggedBySpec_cons, hf, if_true]
        rw [bump_bulkAppend]
      · have hf : flagsAt r p.1 = false := by simp [flagsAt, hm]
        simp only [Function.comp_apply, if_neg hm, flaggedBySpec_cons, hf,
          Bool.false_eq_true, if_false]
    rw [hdetails]
    simp only [Option.some.injEq, Prod.mk.injEq]
    refine ⟨?_, trivial⟩
    rw [hsum, hc]
    omega

/-- Witness for C10 at a concrete generation outcome. -/
theorem claim_C10_edited_record_loses_subject_witness :
    (editedRecord
      { question := "edited?", options := [("A", "x"), ("B", "y"), ("C", "z"), ("D", "w")],
        correct_answer := "B", explanation := "because", topic := "t",
        subtopic := "st" }).subject = none ∧
    ∀ q ∈ [{ sampleQuestion with subject := some "Networking" }], q.subject = some "Networking" :=
  claim_C10_edited_record_loses_subject
    { question := "edited?", options := [("A", "x"), ("B", "y"), ("C", "z"), ("D", "w")],
      correct_answer := "B", explanation := "because", topic := "t", subtopic := "st" }
    (some { questions := some [sampleQuestion] }) (fun _ => false) "Networking"
    [{ sampleQuestion with subject := some "Networking" }] (by decide)

theorem initDetailsFrom_keys (qs : List Question) :
    ∀ n : Nat, (initDetailsFrom n qs).map Prod.fst =
      (List.range' n qs.length).map (fun i : Nat => (i : Int)) := by
  induction qs with
  | nil => intro n; rfl
  | cons q qs' ih =>
    intro n
    rw [initDetailsFrom, List.map_cons, List.length_cons, List.range'_succ,
      List.map_cons, ih (n + 1)]

theorem initDetails_keys (qs : List Question) :
    (initDetails qs).map Prod.fst = (List.range qs.length).map (fun i : Nat => (i : Int)) := by
  rw [initDetails, initDetailsFrom_keys qs 0, List.range_eq_range']

theorem initDetails_keys_nodup (qs : List Question) :
    ((initDetails qs).map Prod.fst).Nodup := by
  rw [initDetails_keys]
  exact List.Nodup.map (fun a b h => by exact_mod_cast h) (List.nodup_range qs.length)

theorem detailAt_initDetailsFrom (qs : List Question) :
    ∀ (n i : Nat), detailAt (initDetailsFrom n qs) (((n + i : Nat) : Int)) =
      (qs[i]?).map
        (fun q => { question_text := q.question, flag_count := 0, flagged_by := [] }) := by
  induction qs with
  | nil => intro n i; simp [initDetailsFrom, detailAt]
  | cons q qs' ih =>
    intro n i
    cases i with
    | zero =>
      have h0 : ((n + 0 : Nat) : Int) = (n : Int) := by norm_num
      rw [h0, initDetailsFrom]
      unfold detailAt
      rw [List.find?_cons_of_pos _ (by simp)]
      simp
    | succ j =>
      rw [initDetailsFrom]
      unfold detailAt
      rw [List.find?_cons_of_neg _ (by simp; omega)]
      have harith : ((n + (j + 1) : Nat) : Int) = (((n + 1) + j : Nat) : Int) := by
        push_cast; ring
      rw [harith]
      have hrec := ih (n + 1) j
      unfold detailAt at hrec
      rw [hrec, List.getElem?_cons_succ]

theorem initDetails_entry_zero (qs : List Question) :
    ∀ n, ∀ p ∈ initDetailsFrom n qs, p.2.flag_count = 0 := by
  induction qs with
  | nil => intro n p hp; simp [initDetailsFrom] at hp
  | cons q qs' ih =>
    intro n p hp
    rw [initDetailsFrom] at hp
    rcases List.mem_cons.mp hp with h | h
    · subst h; rfl
    · exact ih (n + 1) p h

theorem detailAt_map_bulk (ds : List (Int × QFlagDetail)) (F : Int → List String)
    (i : Int) :
    detailAt (ds.map (fun p => (p.1, bulkAppend p.2 (F p.1)))) i =
      (detailAt ds i).map (fun d => bulkAppend d (F i)) := by
  induction ds with
  | nil => rfl
  | cons p ps ih =>
    by_cases h : p.1 = i
    · subst h
      unfold detailAt
      rw [List.map_cons, List.find?_cons_of_pos _ (by simp),
        List.find?_cons_of_pos _ (by simp)]
      simp
    · unfold detailAt
      rw [List.map_cons, List.find?_cons_of_neg _ (by simp [h]),
        List.find?_cons_of_neg _ (by simp [h])]
      unfold detailAt at ih
      exact ih

theorem countP_flagged (ds : List (Int × QFlagDetail)) (F : Int → List String)
    (hz : ∀ p ∈ ds, p.2.flag_count = 0) :
    ((ds.map (fun p => (p.1, bulkAppend p.2 (F p.1)))).filter
      (fun p => 0 < p.2.flag_count)).length =
    ((ds.map Prod.fst).filter (fun i => 0 < (F i).length)).length := by
  induction ds with
  | nil => rfl
  | cons p ps ih =>
    have h0 : p.2.flag_count = 0 := hz p (List.mem_cons_self p ps)
    have hrest := ih (fun x hx => hz x (List.mem_cons_of_mem p hx))
    simp only [List.map_cons, List.filter_cons]
    have hcond : (decide (0 < (bulkAppend p.2 (F p.1)).flag_count)) =
        (decide (0 < (F p.1).length)) := by
      simp [bulkAppend, h0]
    rw [hcond]
    by_cases h : 0 < (F p.1).length
    · rw [if_pos (decide_eq_true h), if_pos (decide_eq_true h)]
      simp [hrest]
    · rw [if_neg (by simpa using h), if_neg (by simpa using h)]
      exact hrest

theorem sum_over_cast (n : Nat) (f : Int → Nat) :
    (((List.range n).map (fun i : Nat => (i : Int))).map f).sum =
      ((List.range n).map (fun i => f ((i : Nat) : Int))).sum := by
  rw [List.map_map]
  rfl

/-- C2: for every response list R and question list Q whose flag maps are
well-formed (every truthy flag key decodes to an integer, and within one
response the decoded indices are distinct — i.e. the flags dict really
is a mapping from indices), `calculate_flag_statistics` succeeds and:
its detail dict is keyed exactly by 0..len(Q)-1; total_flags is the sum
over those indices of flag_count[i]; flagged_questions counts the
indices with flag_count[i] > 0; and flagged_by[i] is the list of
student names of the flagging responses in response-list order,
duplicates kept. -/
theorem claim_C2_flag_statistics (R : List Response) (Q : List Question)
    (H1 : ∀ r ∈ R, ∀ p ∈ r.flags, p.2 = true → (pyInt p.1).isSome)
    (H2 : ∀ r ∈ R, (dtFlags r.flags).Nodup) :
    ∃ st, calculate_flag_statistics R Q = some st ∧
      st.question_flag_details.map Prod.fst =
        (List.range Q.length).map (fun i : Nat => (i : Int)) ∧
      st.total_flags =
        ((List.range Q.length).map
          (fun i => (flaggedBySpec R ((i : Nat) : Int)).length)).sum ∧
      st.flagged_questions =
        ((List.range Q.length).filter
          (fun i => 0 < (flaggedBySpec R ((i : Nat) : Int)).length)).length ∧
      ∀ i : Nat, detailAt st.question_flag_details ((i : Nat) : Int) =
        (Q[i]?).map (fun q =>
          { question_text := q.question,
            flag_count := (flaggedBySpec R ((i : Nat) : Int)).length,
            flagged_by := flaggedBySpec R ((i : Nat) : Int) }) := by
  have hkeys := initDetails_keys_nodup Q
  have hproc := processResponses_eq R 0 (initDetails Q) H1 H2 hkeys
  have hcalc : calculate_flag_statistics R Q =
      some { total_flags :=
               0 + (((initDetails Q).map Prod.fst).map
                 (fun i => (flaggedBySpec R i).length)).sum,
             flagged_questions :=
               (((initDetails Q).map
                  (fun p => (p.1, bulkAppend p.2 (flaggedBySpec R p.1)))).filter
                 (fun p => 0 < p.2.flag_count)).length,
             question_flag_details :=
               (initDetails Q).map
                 (fun p => (p.1, bulkAppend p.2 (flaggedBySpec R p.1))) } := by
    unfold calculate_flag_statistics
    rw [hproc]
  refine ⟨_, hcalc, ?_, ?_, ?_, ?_⟩
  · dsimp only
    rw [List.map_map]
    exact initDetails_keys Q
  · dsimp only
    rw [Nat.zero_add, initDetails_keys, sum_over_cast]
  · dsimp only
    rw [countP_flagged (initDetails Q) (fun i => flaggedBySpec R i)
      (initDetails_entry_zero Q 0), initDetails_keys]
    rw [List.filter_map]
    rw [List.length_map]
    rfl
  · intro i
    dsimp only
    rw [detailAt_map_bulk (initDetails Q) (fun j => flaggedBySpec R j) ((i : Nat) : Int)]
    have hinit := detailAt_initDetailsFrom Q 0 i
    rw [show (((0 + i : Nat) : Int)) = ((i : Nat) : Int) by norm_num] at hinit
    rw [initDetails, hinit]
    cases hq : Q[i]? with
    | none => rfl
    | some q => simp [bulkAppend]

/-- Witness for C2: the spec's scenario — a 3-question ticket, Alice
flagging {0, 2} and Bob flagging {0}. -/
theorem claim_C2_flag_statistics_witness :
    ∃ st, calculate_flag_statistics [respA, respB] threeQuestions = some st ∧
      st.question_flag_details.map Prod.fst =
        (List.range threeQuestions.length).map (fun i : Nat => (i : Int)) ∧
      st.total_flags =
        ((List.range threeQuestions.length).map
          (fun i => (flaggedBySpec [respA, respB] ((i : Nat) : Int)).length)).sum ∧
      st.flagged_questions =
        ((List.range threeQuestions.length).filter
          (fun i => 0 < (flaggedBySpec [respA, respB] ((i : Nat) : Int)).length)).length ∧
      ∀ i : Nat, detailAt st.question_flag_details ((i : Nat) : Int) =
        (threeQuestions[i]?).map (fun q =>
          { question_text := q.question,
            flag_count := (flaggedBySpec [respA, respB] ((i : Nat) : Int)).length,
            flagged_by := flaggedBySpec [respA, respB] ((i : Nat) : Int) }) :=
  claim_C2_flag_statistics [respA, respB] threeQuestions (by decide) (by decide)

theorem processResponseFlags_isSome (name : String) (fs : List (FKey × Bool)) :
    ∀ acc : Nat × List (Int × QFlagDetail),
    (∀ p ∈ fs, p.2 = true → (pyInt p.1).isSome) →
    (processResponseFlags name fs acc).isSome := by
  induction fs with
  | nil => intro acc _; simp [processResponseFlags]
  | cons kb rest ih =>
    intro acc hdec
    obtain ⟨t, ds⟩ := acc
    obtain ⟨k, b⟩ := kb
    have hdecrest : ∀ p ∈ rest, p.2 = true → (pyInt p.1).isSome :=
      fun p hp => hdec p (List.mem_cons_of_mem _ hp)
    cases b with
    | false =>
      have step : processResponseFlags name ((k, false) :: rest) (t, ds) =
          processResponseFlags name rest (t, ds) := by
        simp [processResponseFlags]
      rw [step]
      exact ih (t, ds) hdecrest
    | true =>
      obtain ⟨q, hq⟩ := Option.isSome_iff_exists.mp
        (hdec (k, true) (List.mem_cons_self _ _) rfl)
      by_cases hmem : ds.any (fun p => p.1 = q) = true
      · have step : processResponseFlags name ((k, true) :: rest) (t, ds) =
            processResponseFlags name rest (t + 1, updateDetail ds q name) := by
          simp [processResponseFlags, hq, hmem]
        rw [step]
        exact ih _ hdecrest
      · have hfalse : ds.any (fun p => p.1 = q) = false := by
          cases hv : ds.any (fun p => p.1 = q) with
          | false => rfl
          | true => exact absurd hv hmem
        have step : processResponseFlags name ((k, true) :: rest) (t, ds) =
            processResponseFlags name rest (t, ds) := by
          simp [processResponseFlags, hq, hfalse]
        rw [step]
        exact ih (t, ds) hdecrest

theorem processResponses_isSome (R : List Response) :
    ∀ acc : Nat × List (Int × QFlagDetail),
    (∀ r ∈ R, ∀ p ∈ r.flags, p.2 = true → (pyInt p.1).isSome) →
    (processResponses R acc).isSome := by
  induction R with
  | nil => intro acc _; simp [processResponses]
  | cons r R' ih =>
    intro acc hdec
    obtain ⟨t, ds⟩ := acc
    have h1 := processResponseFlags_isSome r.student_name r.flags (t, ds)
      (hdec r (List.mem_cons_self r R'))
    obtain ⟨acc', hacc'⟩ := Option.isSome_iff_exists.mp h1
    rw [processResponses, hacc']
    exact ih acc' (fun x hx => hdec x (List.mem_cons_of_mem r hx))

theorem processResponseFlags_keys (name : String) (fs : List (FKey × Bool)) :
    ∀ (t : Nat) (ds : List (Int × QFlagDetail)) (t' : Nat)
      (ds' : List (Int × QFlagDetail)),
    processResponseFlags name fs (t, ds) = some (t', ds') →
    ds'.map Prod.fst = ds.map Prod.fst := by
  induction fs with
  | nil =>
    intro t ds t' ds' h
    simp [processResponseFlags] at h
    rw [h.2]
  | cons kb rest ih =>
    intro t ds t' ds' h
    obtain ⟨k, b⟩ := kb
    cases b with
    | false =>
      have step : processResponseFlags name ((k, false) :: rest) (t, ds) =
          processResponseFlags name rest (t, ds) := by
        simp [processResponseFlags]
      rw [step] at h
      exact ih t ds t' ds' h
    | true =>
      cases hq : pyInt k with
      | none => simp [processResponseFlags, hq] at h
      | some q =>
        by_cases hmem : ds.any (fun p => p.1 = q) = true
        · have step : processResponseFlags name ((k, true) :: rest) (t, ds) =
              processResponseFlags name rest (t + 1, updateDetail ds q name) := by
            simp [processResponseFlags, hq, hmem]
          rw [step] at h
          rw [ih (t + 1) (updateDetail ds q name) t' ds' h]
          exact updateDetail_keys ds q name
        · have hfalse : ds.any (fun p => p.1 = q) = false := by
            cases hv : ds.any (fun p => p.1 = q) with
            | false => rfl
            | true => exact absurd hv hmem
          have step : processResponseFlags name ((k, true) :: rest) (t, ds) =
              processResponseFlags name rest (t, ds) := by
            simp [processResponseFlags, hq, hfalse]
          rw [step] at h
          exact ih t ds t' ds' h

theorem processResponses_keys (R : List Response) :
    ∀ (t : Nat) (ds : List (Int × QFlagDetail)) (t' : Nat)
      (ds' : List (Int × QFlagDetail)),
    processResponses R (t, ds) = some (t', ds') →
    ds'.map Prod.fst = ds.map Prod.fst := by
  induction R with
  | nil =>
    intro t ds t' ds' h
    simp [processResponses] at h
    rw [h.2]
  | cons r R' ih =>
    intro t ds t' ds' h
    rw [processResponses] at h
    cases hacc : processResponseFlags r.student_name r.flags (t, ds) with
    | none => rw [hacc] at h; exact absurd h (by simp)
    | some acc' =>
      obtain ⟨t1, ds1⟩ := acc'
      rw [hacc] at h
      rw [ih t1 ds1 t' ds' h]
      exact processResponseFlags_keys r.student_name r.flags t ds t1 ds1 hacc

theorem pyIndex_get (qs : List Question) (n : Int) (h0 : 0 ≤ n)
    (hlt : n < (qs.length : Int)) : ∃ q, pyIndex qs n = some q := by
  unfold pyIndex
  rw [if_pos h0]
  have hn : n.toNat < qs.length := by omega
  exact ⟨qs[n.toNat], List.getElem?_eq_getElem hn⟩

theorem renderAnswers_nonneg (flags : List (FKey × Bool))
    (answers : List (FKey × String)) (questions : List Question) :
    (∀ p ∈ answers, decodesNonneg p.1 = true) →
    ∃ rows, renderAnswers flags answers questions = some rows ∧
      ∀ row ∈ rows, 0 ≤ row.q_idx ∧ row.q_idx < (questions.length : Int) := by
  induction answers with
  | nil => intro _; exact ⟨[], rfl, by simp⟩
  | cons ka rest ih =>
    intro hdec
    obtain ⟨k, ans⟩ := ka
    have hk : decodesNonneg k = true := hdec (k, ans) (List.mem_cons_self _ _)
    obtain ⟨rows', hrows', hall⟩ :=
      ih (fun p hp => hdec p (List.mem_cons_of_mem _ hp))
    cases hpy : pyInt k with
    | none => rw [decodesNonneg, hpy] at hk; exact absurd hk (by simp)
    | some n =>
      have hn : 0 ≤ n := by
        rw [decodesNonneg, hpy] at hk
        simpa using hk
      by_cases hlt : n < (questions.length : Int)
      · obtain ⟨q, hq⟩ := pyIndex_get questions n hn hlt
        refine ⟨{ q_idx := n,
                  is_flagged :=
                    ((flags.find? (fun p => p.1 = FKey.str (toString n))).map
                      (fun p => p.2)).getD false,
                  is_correct := ans = q.correct_answer,
                  answer_text :=
                    ((q.options.find? (fun p => p.1 = ans)).map
                      (fun p => p.2)).getD "N/A" } :: rows', ?_, ?_⟩
        · simp [renderAnswers, hpy, hlt, hq, hrows']
        · intro row hrow
          rcases List.mem_cons.mp hrow with h | h
          · rw [h]
            exact ⟨hn, hlt⟩
          · exact hall row h
      · refine ⟨rows', ?_, hall⟩
        simp [renderAnswers, hpy, hlt, hrows']

/-- C7 counterexample: a truthy flag entry with the non-integer-decodable
key "abc" makes `calculate_flag_statistics` raise an uncaught
`ValueError` (modeled as `none`), and an answers entry with the same key
makes the detail-view loop raise too — malformed keys are NOT tolerated. -/
theorem claim_C7_counterexample_malformed_key_raises :
    calculate_flag_statistics
      [{ student_name := "Mallory", flags := [(FKey.str "abc", true)],
         responses := [] }] [sampleQuestion] = none ∧
    renderAnswers [] [(FKey.str "abc", "A")] [sampleQuestion] = none := by
  decide

/-- C7 amended: provided every truthy flag key (and every answers key,
non-negatively) DECODES as an integer, aggregation and the detail view
never raise: aggregation succeeds and tracks only the in-range indices
0..len(Q)-1 (decoded out-of-range keys are skipped), the detail view
renders only rows with indices inside [0, len(Q)), and int-keyed and
string-keyed entries decoding to the same index are processed
identically; a non-integer-decodable truthy flag key or answers key,
however, raises an uncaught ValueError. -/
theorem claim_C7_amended_defensive_tolerance (R : List Response)
    (Q : List Question) (flags : List (FKey × Bool))
    (answers : List (FKey × String))
    (Hf : ∀ r ∈ R, ∀ p ∈ r.flags, p.2 = true → (pyInt p.1).isSome)
    (Ha : ∀ p ∈ answers, decodesNonneg p.1 = true) :
    (calculate_flag_statistics R Q).isSome = true ∧
    (∀ st, calculate_flag_statistics R Q = some st →
      st.question_flag_details.map Prod.fst =
        (List.range Q.length).map (fun i : Nat => (i : Int))) ∧
    (∃ rows, renderAnswers flags answers Q = some rows ∧
      ∀ row ∈ rows, 0 ≤ row.q_idx ∧ row.q_idx < (Q.length : Int)) ∧
    (∀ (k : FKey) (n : Int) (name : String) (fs : List (FKey × Bool))
        (t : Nat) (ds : List (Int × QFlagDetail)), pyInt k = some n →
      processResponseFlags name ((k, true) :: fs) (t, ds) =
        processResponseFlags name ((FKey.int n, true) :: fs) (t, ds)) := by
  refine ⟨?_, ?_, renderAnswers_nonneg flags answers Q Ha, ?_⟩
  · have h := processResponses_isSome R (0, initDetails Q) Hf
    obtain ⟨⟨t', ds'⟩, hsome⟩ := Option.isSome_iff_exists.mp h
    simp [calculate_flag_statistics, hsome]
  · intro st hst
    unfold calculate_flag_statistics at hst
    cases hv : processResponses R (0, initDetails Q) with
    | none => rw [hv] at hst; exact absurd hst (by simp)
    | some acc =>
      obtain ⟨t', ds'⟩ := acc
      rw [hv] at hst
      have h2 := Option.some.inj hst
      rw [← h2]
      have hkeys := processResponses_keys R 0 (initDetails Q) t' ds' hv
      dsimp only
      rw [hkeys, initDetails_keys]
  · intro k n name fs t ds hpy
    simp only [processResponseFlags, hpy]
    rfl

/-- Witness for the amended C7: a response mixing int keys, string keys,
out-of-range indices and a falsy malformed key, against a one-question
snapshot. -/
theorem claim_C7_amended_defensive_tolerance_witness :
    (calculate_flag_statistics [respC] [sampleQuestion]).isSome = true ∧
    (∀ st, calculate_flag_statistics [respC] [sampleQuestion] = some st →
      st.question_flag_details.map Prod.fst =
        (List.range [sampleQuestion].length).map (fun i : Nat => (i : Int))) ∧
    (∃ rows, renderAnswers respC.flags respC.responses [sampleQuestion] = some rows ∧
      ∀ row ∈ rows, 0 ≤ row.q_idx ∧
        row.q_idx < (([sampleQuestion] : List Question).length : Int)) ∧
    (∀ (k : FKey) (n : Int) (name : String) (fs : List (FKey × Bool))
        (t : Nat) (ds : List (Int × QFlagDetail)), pyInt k = some n →
      processResponseFlags name ((k, true) :: fs) (t, ds) =
        processResponseFlags name ((FKey.int n, true) :: fs) (t, ds)) :=
  claim_C7_amended_defensive_tolerance [respC] [sampleQuestion] respC.flags
    respC.responses (by decide) (by decide)

end Professor
